import Mathlib

/-!
Shallow embedding of the contact-manager program `adressbook.py`:
validated fields (phone, birth date), contact records, the address book
and its upcoming-birthday query, and the command handlers with their
exception-to-string wrapper.  Python mutation is modelled by explicit
state passing; Python exceptions by `Except` values that also carry the
state at the moment the exception escapes.
-/

/-- Python `str.isdigit` on the ASCII text domain of this CLI:
true iff the string is non-empty and every character is a decimal digit. -/
def pyIsDigit (s : String) : Bool :=
  !s.data.isEmpty && s.data.all Char.isDigit

/-- Model of `PhoneNumber.__init__`: raises `ValueError("Phone must contain 10 digits")`
unless the raw string is all digits and has length exactly 10; on success the
raw string itself is stored. -/
def makePhoneNumber (s : String) : Except String String :=
  if !pyIsDigit s || s.data.length != 10 then
    Except.error "Phone must contain 10 digits"
  else
    Except.ok s

/-- Splitting a character list at every dot, as Python `str.split('.')`
would on the date strings below (each returned chunk is dot-free). -/
def splitOnDot : List Char → List (List Char)
  | [] => [[]]
  | c :: rest =>
    if c == '.' then
      [] :: splitOnDot rest
    else
      match splitOnDot rest with
      | [] => [[c]]
      | h :: t => (c :: h) :: t

/-- All characters are ASCII decimal digits. -/
def allDigits (l : List Char) : Bool := l.all Char.isDigit

/-- Numeric value of a digit string, as Python `int` on a digit token. -/
def strVal (l : List Char) : Nat :=
  l.foldl (fun a c => a * 10 + (c.toNat - 48)) 0

/-- Gregorian leap-year rule used by Python `datetime.date`. -/
def isLeap (y : Nat) : Bool :=
  (y % 4 == 0 && y % 100 != 0) || y % 400 == 0

/-- Length of a month in the Gregorian calendar. -/
def daysInMonth (y m : Nat) : Nat :=
  if m = 2 then (if isLeap y then 29 else 28)
  else if m = 4 || m = 6 || m = 9 || m = 11 then 30
  else 31

/-- Validity of a (year, month, day) triple for Python `datetime.date`:
year within MINYEAR..MAXYEAR, month 1..12, day within the month. -/
def dateValid (y m d : Nat) : Bool :=
  decide (1 ≤ y) && decide (y ≤ 9999) && decide (1 ≤ m) && decide (m ≤ 12) &&
  decide (1 ≤ d) && decide (d ≤ daysInMonth y m)

/-- The `strptime` day token `3[01]|[12]\d|0[1-9]|[1-9]`: one or two digits
whose value is 1..31. -/
def dayTok (l : List Char) : Bool :=
  allDigits l && decide (1 ≤ l.length) && decide (l.length ≤ 2) &&
  decide (1 ≤ strVal l) && decide (strVal l ≤ 31)

/-- The `strptime` month token `1[0-2]|0[1-9]|[1-9]`: one or two digits
whose value is 1..12. -/
def monTok (l : List Char) : Bool :=
  allDigits l && decide (1 ≤ l.length) && decide (l.length ≤ 2) &&
  decide (1 ≤ strVal l) && decide (strVal l ≤ 12)

/-- The `strptime` year token: exactly four digits. -/
def yearTok (l : List Char) : Bool :=
  allDigits l && decide (l.length = 4)

/-- Token-level model of Python `datetime.strptime(s, "%d.%m.%Y")`:
the compiled pattern requires a day token, a literal dot, a month token,
a literal dot, and a year token, with the whole input consumed.  Returns
the (day, month, year) numbers before calendar validation. -/
def parseDMY (s : String) : Option (Nat × Nat × Nat) :=
  match splitOnDot s.data with
  | [dcs, mcs, ycs] =>
    if dayTok dcs && monTok mcs && yearTok ycs then
      some (strVal dcs, strVal mcs, strVal ycs)
    else
      none
  | _ => none

/-- A calendar date as Python `datetime.date` holds it. -/
structure Date where
  y : Nat
  m : Nat
  d : Nat
deriving DecidableEq, Repr

/-- Full `datetime.strptime(s, "%d.%m.%Y").date()`: token match followed by
construction of the `date`, which re-checks calendar validity. -/
def strptimeDate (s : String) : Option Date :=
  match parseDMY s with
  | some (d, m, y) => if dateValid y m d then some ⟨y, m, d⟩ else none
  | none => none

/-- Model of `BirthDate.__init__`: accepts the raw string iff it `strptime`s under
"%d.%m.%Y", storing the raw string unchanged; otherwise raises
`ValueError("Invalid date format. Use DD.MM.YYYY")`. -/
def makeBirthday (s : String) : Except String String :=
  match strptimeDate s with
  | some _ => Except.ok s
  | none => Except.error "Invalid date format. Use DD.MM.YYYY"

/-- Days in all years strictly before year `y` (proleptic Gregorian), so that
`daysBeforeYear y + 1` is the ordinal of the 1st of January of year `y`,
matching Python `date.toordinal` with `date(1,1,1).toordinal() = 1`. -/
def daysBeforeYear (y : Nat) : Nat :=
  365 * (y - 1) + (y - 1) / 4 - (y - 1) / 100 + (y - 1) / 400

/-- Days in the months of year `y` strictly before month `m`. -/
def daysBeforeMonth (y m : Nat) : Nat :=
  (List.range (m - 1)).foldl (fun a i => a + daysInMonth y (i + 1)) 0

/-- Python `date.toordinal`: day 1 is 0001-01-01. -/
def toOrdinal (y m d : Nat) : Nat :=
  daysBeforeYear y + daysBeforeMonth y m + d

/-- Ordinal of a `Date`. -/
def dateOrd (a : Date) : Nat := toOrdinal a.y a.m a.d

/-- Python `date.weekday()`: Monday is 0, Sunday is 6. -/
def weekday (ord : Nat) : Nat := (ord + 6) % 7

/-- Inverse of `toOrdinal` (civil-from-days), giving (year, month, day). -/
def fromOrdinal (o : Nat) : Nat × Nat × Nat :=
  let z := o + 305
  let era := z / 146097
  let doe := z % 146097
  let yoe := (doe - doe / 1460 + doe / 36524 - doe / 146096) / 365
  let y := yoe + era * 400
  let doy := doe - (365 * yoe + yoe / 4 - yoe / 100)
  let mp := (5 * doy + 2) / 153
  let d := doy - (153 * mp + 2) / 5 + 1
  let m := if mp < 10 then mp + 3 else mp - 9
  if m ≤ 2 then (y + 1, m, d) else (y, m, d)

/-- Python lexicographic comparison of dates (`date.__lt__`). -/
def dateLt (a b : Date) : Bool :=
  decide (a.y < b.y) ||
  (a.y == b.y && (decide (a.m < b.m) || (a.m == b.m && decide (a.d < b.d))))

/-- Zero-padding to two digits, as `strftime` "%d" / "%m". -/
def pad2 (n : Nat) : String :=
  if n < 10 then "0" ++ toString n else toString n

/-- Zero-padding to four digits, as `strftime` "%Y". -/
def pad4 (n : Nat) : String :=
  if n < 10 then "000" ++ toString n
  else if n < 100 then "00" ++ toString n
  else if n < 1000 then "0" ++ toString n
  else toString n

/-- Rendering via `date.strftime` with pattern "%d.%m.%Y". -/
def formatDMY (a : Date) : String :=
  pad2 a.d ++ "." ++ pad2 a.m ++ "." ++ pad4 a.y

/-- Model of `ContactRecord`: a name, an ordered phone list (raw validated strings,
as stored inside the `PhoneNumber` field objects), and an optional birthday
(the raw validated string stored inside the `BirthDate` field object). -/
structure ContactRecord where
  name : String
  phones : List String
  birthday : Option String
deriving DecidableEq, Repr

/-- One entry of the `get_upcoming_birthdays` result:
the dict `{"name": ..., "birthday": ...}`. -/
structure BEntry where
  name : String
  birthday : String
deriving DecidableEq, Repr

/-- Model of `ContactRecord.add_phone`: validates, then appends; on validation
failure the exception escapes and the list is untouched. -/
def add_phone (phones : List String) (p : String) : Except String (List String) :=
  match makePhoneNumber p with
  | Except.ok v => Except.ok (phones ++ [v])
  | Except.error e => Except.error e

/-- Model of `ContactRecord.change_phone`: scans the list in order for the first
value equal to `old`; on a match the new number is validated and written in
place; with no match `ValueError("Phone not found")` is raised.  The second
component is the phone list at the moment the call returns or the
exception escapes. -/
def change_phone (phones : List String) (old new : String) :
    Except String Unit × List String :=
  match phones with
  | [] => (Except.error "Phone not found", [])
  | p :: rest =>
    if p == old then
      match makePhoneNumber new with
      | Except.ok v => (Except.ok (), v :: rest)
      | Except.error e => (Except.error e, p :: rest)
    else
      match change_phone rest old new with
      | (out, rest') => (out, p :: rest')

/-- Python `", ".join(...)` and friends. -/
def joinSep (sep : String) : List String → String
  | [] => ""
  | [x] => x
  | x :: rest => x ++ sep ++ joinSep sep rest

/-- Model of `ContactRecord.__str__`. -/
def formatRecord (r : ContactRecord) : String :=
  r.name ++ ": " ++ joinSep ", " r.phones ++
    (match r.birthday with
     | some b => " | Birthday: " ++ b
     | none => "")

/-- Model of `AddressBook.find`: dict lookup by exact name key.  The book is the
dict's entry list in insertion order, names unique. -/
def find (book : List ContactRecord) (name : String) : Option ContactRecord :=
  book.find? (fun r => r.name == name)

/-- Model of `AddressBook.add_record`: dict assignment keyed by the record's name —
an existing key keeps its position and gets the new record, a fresh key is
appended. -/
def add_record (book : List ContactRecord) (r : ContactRecord) :
    List ContactRecord :=
  if book.any (fun x => x.name == r.name) then
    book.map (fun x => if x.name == r.name then r else x)
  else
    book ++ [r]

/-- In-place mutation of the record stored under `name` (Python object
aliasing: handlers mutate the record they obtained from `find`). -/
def mapRecord (book : List ContactRecord) (name : String)
    (f : ContactRecord → ContactRecord) : List ContactRecord :=
  book.map (fun x => if x.name == name then f x else x)

/-- Model of `date.replace(year=y)`: rebuilds the date with the new year, raising
`ValueError` when the result is not a valid `datetime.date`
(notably Feb 29 in a non-leap year, or a year outside 1..9999). -/
def replaceYear (b : Date) (y : Nat) : Except String Date :=
  if dateValid y b.m b.d then Except.ok ⟨y, b.m, b.d⟩
  else Except.error "day is out of range for month"

/-- Weekend shift on an ordinal: Saturday moves 2 days, Sunday 1 day. -/
def shiftWeekend (ord : Nat) : Nat :=
  if weekday ord == 5 then ord + 2
  else if weekday ord == 6 then ord + 1
  else ord

/-- Largest ordinal `datetime.date` can represent (9999-12-31); adding a
timedelta beyond it raises `OverflowError`. -/
def maxOrdinal : Nat := toOrdinal 9999 12 31

/-- The loop body of `AddressBook.get_upcoming_birthdays` for one record:
skip records without a birthday; re-parse the stored string; pair the
birth day/month with this year, move to next year when already past,
shift a weekend occurrence to Monday, and keep it when it lies 0..7 days
ahead, rendering the shifted date with `strftime("%d.%m.%Y")`. -/
def procRecord (today : Date) (r : ContactRecord) :
    Except String (Option BEntry) :=
  match r.birthday with
  | none => Except.ok none
  | some bs =>
    match strptimeDate bs with
    | none => Except.error "time data does not match format"
    | some birth =>
      match replaceYear birth today.y with
      | Except.error e => Except.error e
      | Except.ok c0 =>
        match (if dateLt c0 today then replaceYear birth (today.y + 1)
               else Except.ok c0) with
        | Except.error e => Except.error e
        | Except.ok c1 =>
          if maxOrdinal < shiftWeekend (dateOrd c1) then
            Except.error "date value out of range"
          else if 0 ≤ ((shiftWeekend (dateOrd c1) : Int) - (dateOrd today : Int)) ∧
                  ((shiftWeekend (dateOrd c1) : Int) - (dateOrd today : Int)) ≤ 7 then
            Except.ok (some ⟨r.name,
              formatDMY ⟨(fromOrdinal (shiftWeekend (dateOrd c1))).1,
                         (fromOrdinal (shiftWeekend (dateOrd c1))).2.1,
                         (fromOrdinal (shiftWeekend (dateOrd c1))).2.2⟩⟩)
          else Except.ok none

/-- Model of `AddressBook.get_upcoming_birthdays`: the records in book order, each
contributing its entry when selected; the first exception aborts the scan. -/
def get_upcoming_birthdays (book : List ContactRecord) (today : Date) :
    Except String (List BEntry) :=
  match book with
  | [] => Except.ok []
  | r :: rest =>
    match procRecord today r with
    | Except.error e => Except.error e
    | Except.ok o =>
      match get_upcoming_birthdays rest today with
      | Except.error e => Except.error e
      | Except.ok l => Except.ok (o.toList ++ l)

/-- The selection rule as the specification states it, per record: records
without a birthday give nothing; otherwise the candidate is the birth
day/month paired with this year, re-paired with next year when earlier than
today, then shifted +2 days from Saturday or +1 day from Sunday; the record
contributes an entry exactly when the candidate lies 0..7 whole days from
today, reporting the shifted candidate. -/
def claimEntry (today : Date) (r : ContactRecord) : Option BEntry :=
  match r.birthday with
  | none => none
  | some bs =>
    match strptimeDate bs with
    | none => none
    | some birth =>
      match replaceYear birth today.y with
      | Except.error _ => none
      | Except.ok c0 =>
        match (if dateLt c0 today then replaceYear birth (today.y + 1)
               else Except.ok c0) with
        | Except.error _ => none
        | Except.ok c1 =>
          if maxOrdinal < shiftWeekend (dateOrd c1) then none
          else if 0 ≤ ((shiftWeekend (dateOrd c1) : Int) - (dateOrd today : Int)) ∧
                  ((shiftWeekend (dateOrd c1) : Int) - (dateOrd today : Int)) ≤ 7 then
            some ⟨r.name,
              formatDMY ⟨(fromOrdinal (shiftWeekend (dateOrd c1))).1,
                         (fromOrdinal (shiftWeekend (dateOrd c1))).2.1,
                         (fromOrdinal (shiftWeekend (dateOrd c1))).2.2⟩⟩
          else none

/-- Message of the `ValueError` Python raises when tuple unpacking of a
list of length `got` against `expected` targets fails. -/
def unpackErr (expected got : Nat) : String :=
  if got < expected then
    "not enough values to unpack (expected " ++ toString expected ++
      ", got " ++ toString got ++ ")"
  else
    "too many values to unpack (expected " ++ toString expected ++ ")"

/-- Handler `add_contact` under the `input_error` wrapper: unpack the two
arguments, find-or-create the record for the name (a fresh empty record is
committed to the book before the phone is validated), then `add_phone`;
any exception becomes the string `"Error: <message>"`.  Returns the reply
string and the book state afterwards. -/
def add_contact (args : List String) (book : List ContactRecord) :
    String × List ContactRecord :=
  match args with
  | [name, phone] =>
    let r := match find book name with
      | some r0 => r0
      | none => ⟨name, [], none⟩
    let book1 := match find book name with
      | some _ => book
      | none => add_record book ⟨name, [], none⟩
    match add_phone r.phones phone with
    | Except.ok ps =>
      ("Contact saved", mapRecord book1 name (fun x => { x with phones := ps }))
    | Except.error e => ("Error: " ++ e, book1)
  | _ => ("Error: " ++ unpackErr 2 args.length, book)

/-- Handler `change_contact` under the `input_error` wrapper: unpack the
three arguments, find the record ("Contact not found" when absent), then
`change_phone`; any exception becomes `"Error: <message>"`. -/
def change_contact (args : List String) (book : List ContactRecord) :
    String × List ContactRecord :=
  match args with
  | [name, old, new] =>
    match find book name with
    | none => ("Contact not found", book)
    | some r =>
      match change_phone r.phones old new with
      | (Except.ok _, ph) =>
        ("Phone updated", mapRecord book name (fun x => { x with phones := ph }))
      | (Except.error e, ph) =>
        ("Error: " ++ e, mapRecord book name (fun x => { x with phones := ph }))
  | _ => ("Error: " ++ unpackErr 3 args.length, book)

/-- Handler `show_phone` under the `input_error` wrapper: `args[0]` (an
empty argument list raises IndexError), find the record, and render the
comma-joined phone list. -/
def show_phone (args : List String) (book : List ContactRecord) :
    String × List ContactRecord :=
  match args with
  | [] => ("Error: list index out of range", book)
  | name :: _ =>
    match find book name with
    | none => ("Contact not found", book)
    | some r => (joinSep ", " r.phones, book)

/-- Handler `add_birthday` under the `input_error` wrapper: unpack the two
arguments, find the record, then `ContactRecord.add_birthday`, which
validates via `BirthDate` and stores the raw string (last write wins). -/
def add_birthday (args : List String) (book : List ContactRecord) :
    String × List ContactRecord :=
  match args with
  | [name, date] =>
    match find book name with
    | none => ("Contact not found", book)
    | some _ =>
      match makeBirthday date with
      | Except.ok v =>
        ("Birthday added", mapRecord book name (fun x => { x with birthday := some v }))
      | Except.error e => ("Error: " ++ e, book)
  | _ => ("Error: " ++ unpackErr 2 args.length, book)

/-- Handler `show_birthday` under the `input_error` wrapper: `args[0]`,
find the record; when it is absent or has no birthday the reply is
"Birthday not found", otherwise the stored raw birthday string. -/
def show_birthday (args : List String) (book : List ContactRecord) :
    String × List ContactRecord :=
  match args with
  | [] => ("Error: list index out of range", book)
  | name :: _ =>
    match find book name with
    | none => ("Birthday not found", book)
    | some r =>
      match r.birthday with
      | none => ("Birthday not found", book)
      | some b => (b, book)

/-- The birthday pattern exactly as the specification words it: dot-separated
day.month.year with a 2-digit day, a 2-digit month and a 4-digit year,
naming a valid calendar date. -/
def twoDigitPattern (s : String) : Bool :=
  match splitOnDot s.data with
  | [dcs, mcs, ycs] =>
    allDigits dcs && decide (dcs.length = 2) &&
    allDigits mcs && decide (mcs.length = 2) &&
    allDigits ycs && decide (ycs.length = 4) &&
    dateValid (strVal ycs) (strVal mcs) (strVal dcs)
  | _ => false

/-- The pattern the program actually accepts: dot-separated day.month.year
with a 1-2 digit day, a 1-2 digit month and an exactly 4-digit year,
naming a valid calendar date. -/
def pyDatePattern (s : String) : Bool :=
  match splitOnDot s.data with
  | [dcs, mcs, ycs] =>
    allDigits dcs && decide (1 ≤ dcs.length) && decide (dcs.length ≤ 2) &&
    allDigits mcs && decide (1 ≤ mcs.length) && decide (mcs.length ≤ 2) &&
    allDigits ycs && decide (ycs.length = 4) &&
    dateValid (strVal ycs) (strVal mcs) (strVal dcs)
  | _ => false

/-- The `PhoneNumber` invariant: all digit characters and length exactly 10. -/
def validPhone (s : String) : Bool :=
  !s.data.isEmpty && s.data.all Char.isDigit && s.data.length == 10

/-- Every phone value stored anywhere in the book satisfies the
`PhoneNumber` invariant. -/
def goodBook (book : List ContactRecord) : Prop :=
  ∀ r ∈ book, ∀ p ∈ r.phones, validPhone p = true

theorem daysInMonth_le (y m : Nat) : daysInMonth y m ≤ 31 := by
  unfold daysInMonth
  split
  · split <;> omega
  · split <;> omega

/-- C2: the phone constructor succeeds exactly on non-empty all-digit strings
of length exactly 10, returns the raw string unchanged, and on every other
string fails with the message "Phone must contain 10 digits" (which carries
the required phrase "must contain 10 digits"). -/
theorem makePhoneNumber_spec (s : String) :
    (makePhoneNumber s = Except.ok s ↔
      s.data ≠ [] ∧ s.data.all Char.isDigit = true ∧ s.data.length = 10) ∧
    (∀ r, makePhoneNumber s = Except.ok r → r = s) ∧
    (¬ (s.data ≠ [] ∧ s.data.all Char.isDigit = true ∧ s.data.length = 10) →
      makePhoneNumber s = Except.error "Phone must contain 10 digits") := by
  have hc : (!pyIsDigit s || s.data.length != 10) = false ↔
      (s.data ≠ [] ∧ s.data.all Char.isDigit = true ∧ s.data.length = 10) := by
    unfold pyIsDigit
    cases s.data <;> simp
  cases hb : (!pyIsDigit s || s.data.length != 10) with
  | false =>
    have hok : makePhoneNumber s = Except.ok s := by
      unfold makePhoneNumber
      rw [hb]
      rfl
    exact ⟨⟨fun _ => hc.mp hb, fun _ => hok⟩,
           fun r h => by rw [hok] at h; exact (Except.ok.inj h).symm,
           fun h => absurd (hc.mp hb) h⟩
  | true =>
    have herr : makePhoneNumber s = Except.error "Phone must contain 10 digits" := by
      unfold makePhoneNumber
      rw [hb]
      rfl
    refine ⟨⟨fun h => ?_, fun h => ?_⟩, fun r h => ?_, fun _ => herr⟩
    · rw [herr] at h; cases h
    · exact absurd (hc.mpr h) (by rw [hb]; simp)
    · rw [herr] at h; cases h

/-- Witness for `makePhoneNumber_spec` at the concrete input "1234567890". -/
theorem makePhoneNumber_spec_w :
    makePhoneNumber "1234567890" = Except.ok "1234567890" :=
  (makePhoneNumber_spec "1234567890").1.mpr (by decide)

theorem strptime_isSome_eq (s : String) :
    (strptimeDate s).isSome = pyDatePattern s := by
  unfold strptimeDate parseDMY pyDatePattern
  rcases h : splitOnDot s.data with _ | ⟨a, _ | ⟨b, _ | ⟨c, _ | ⟨d, t⟩⟩⟩⟩ <;> try rfl
  have hle : dateValid (strVal c) (strVal b) (strVal a) = true →
      1 ≤ strVal a ∧ strVal a ≤ 31 ∧ 1 ≤ strVal b ∧ strVal b ≤ 12 := by
    intro hdv
    unfold dateValid at hdv
    simp only [Bool.and_eq_true, decide_eq_true_eq] at hdv
    obtain ⟨⟨⟨⟨⟨hy1, hy2⟩, hm1⟩, hm2⟩, hd1⟩, hd6⟩ := hdv
    exact ⟨hd1, le_trans hd6 (daysInMonth_le _ _), hm1, hm2⟩
  cases hA : (dayTok a && monTok b && yearTok c) with
  | true =>
    have hA' := hA
    simp only [Bool.and_eq_true] at hA'
    obtain ⟨⟨hd, hm⟩, hy⟩ := hA'
    unfold dayTok at hd
    unfold monTok at hm
    unfold yearTok at hy
    simp only [Bool.and_eq_true, decide_eq_true_eq] at hd hm hy
    obtain ⟨⟨⟨⟨d1, d2⟩, d3⟩, d4⟩, d5⟩ := hd
    obtain ⟨⟨⟨⟨m1, m2⟩, m3⟩, m4⟩, m5⟩ := hm
    obtain ⟨y1, y2⟩ := hy
    cases hdv : dateValid (strVal c) (strVal b) (strVal a) with
    | true => simp [hA, hdv, d1, d2, d3, m1, m2, m3, y1, y2]
    | false => simp [hA, hdv]
  | false =>
    cases hdv : dateValid (strVal c) (strVal b) (strVal a) with
    | false => simp [hA, hdv]
    | true =>
      obtain ⟨w1, w2, w3, w4⟩ := hle hdv
      simp only [hA, hdv, Bool.false_eq_true, if_false, Option.isSome_none,
        Bool.and_true]
      symm
      by_contra hB
      simp only [Bool.not_eq_false, Bool.and_eq_true, decide_eq_true_eq] at hB
      obtain ⟨⟨⟨⟨⟨⟨⟨r1, r2⟩, r3⟩, r4⟩, r5⟩, r6⟩, r7⟩, r8⟩ := hB
      have hok : (dayTok a && monTok b && yearTok c) = true := by
        unfold dayTok monTok yearTok
        simp only [Bool.and_eq_true, decide_eq_true_eq]
        exact ⟨⟨⟨⟨⟨⟨r1, r2⟩, r3⟩, w1⟩, w2⟩, ⟨⟨⟨⟨r4, r5⟩, r6⟩, w3⟩, w4⟩⟩, ⟨r7, r8⟩⟩
      rw [hA] at hok
      cases hok

/-- C3 as stated fails on the code: the string "1.01.2020", whose day token
has only one digit, is accepted by the birthday constructor even though it
does not match the required 2-digit-day / 2-digit-month / 4-digit-year
pattern. -/
theorem makeBirthday_claim_cex :
    makeBirthday "1.01.2020" = Except.ok "1.01.2020" ∧
    twoDigitPattern "1.01.2020" = false := by
  constructor <;> rfl

/-- C3 amended: the birthday constructor succeeds exactly on dot-separated
day.month.year strings with a 1-2 digit day, a 1-2 digit month and an
exactly 4-digit year naming a valid calendar date (impossible dates such as
"31.02.2020" are rejected), returning the raw string unchanged; every other
string fails with exactly the message "Invalid date format. Use DD.MM.YYYY". -/
theorem makeBirthday_spec (s : String) :
    (makeBirthday s = Except.ok s ↔ pyDatePattern s = true) ∧
    (∀ r, makeBirthday s = Except.ok r → r = s) ∧
    (pyDatePattern s = false →
      makeBirthday s = Except.error "Invalid date format. Use DD.MM.YYYY") := by
  have h := strptime_isSome_eq s
  unfold makeBirthday
  cases hs : strptimeDate s with
  | some d0 =>
    rw [hs] at h
    refine ⟨⟨fun _ => ?_, fun _ => rfl⟩, fun r hr => (Except.ok.inj hr).symm,
      fun hf => ?_⟩
    · exact h.symm
    · rw [hf] at h
      cases h
  | none =>
    rw [hs] at h
    refine ⟨⟨fun hk => ?_, fun hk => ?_⟩, fun r hr => ?_, fun _ => rfl⟩
    · cases hk
    · rw [hk] at h
      cases h
    · cases hr

/-- Witness for `makeBirthday_spec` at the concrete input "24.08.1991". -/
theorem makeBirthday_spec_w :
    makeBirthday "24.08.1991" = Except.ok "24.08.1991" :=
  (makeBirthday_spec "24.08.1991").1.mpr (by rfl)

theorem change_phone_not_found (phones : List String) (old new : String)
    (h : old ∉ phones) :
    change_phone phones old new = (Except.error "Phone not found", phones) := by
  induction phones with
  | nil => rfl
  | cons p rest ih =>
    have hp : p ≠ old := fun he => h (he ▸ List.mem_cons_self p rest)
    have hrest : old ∉ rest := fun hm => h (List.mem_cons_of_mem p hm)
    unfold change_phone
    rw [show (p == old) = false from beq_eq_false_iff_ne.mpr hp]
    simp only [Bool.false_eq_true, if_false, ih hrest]

theorem change_phone_found (pre post : List String) (old new : String)
    (hpre : old ∉ pre) :
    change_phone (pre ++ old :: post) old new =
      match makePhoneNumber new with
      | Except.ok v => (Except.ok (), pre ++ v :: post)
      | Except.error e => (Except.error e, pre ++ old :: post) := by
  induction pre with
  | nil =>
    simp only [List.nil_append, change_phone, beq_self_eq_true, if_true]
  | cons q pre' ih =>
    have hq : q ≠ old := fun he => hpre (he ▸ List.mem_cons_self q pre')
    have hpre' : old ∉ pre' := fun hm => hpre (List.mem_cons_of_mem q hm)
    have hrec := ih hpre'
    simp only [List.cons_append, change_phone, List.append_eq]
    rw [show (q == old) = false from beq_eq_false_iff_ne.mpr hq]
    simp only [Bool.false_eq_true, if_false, hrec]
    cases makePhoneNumber new <;> rfl

/-- C4 corrected: `change_phone` does not validate the replacement number
before searching — the new number is validated only upon finding a phone
equal to the old one.  When the old number is absent the call fails with
the not-found error regardless of the validity of the new number, and its
message is "Phone not found"; when it is present, the first match is
replaced by the validated new number, or the constructor's InvalidFormat
error escapes with the list unchanged. -/
theorem change_phone_spec (phones : List String) (old new : String) :
    (old ∉ phones →
      change_phone phones old new = (Except.error "Phone not found", phones)) ∧
    (∀ pre post, phones = pre ++ old :: post → old ∉ pre →
      change_phone phones old new =
        match makePhoneNumber new with
        | Except.ok v => (Except.ok (), pre ++ v :: post)
        | Except.error e => (Except.error e, phones)) := by
  refine ⟨fun h => change_phone_not_found phones old new h,
          fun pre post heq hpre => ?_⟩
  subst heq
  rw [change_phone_found pre post old new hpre]

/-- C4 as stated fails on the code: with the phone list ["1234567890"], an
absent old number and an invalid new number, the call returns the
not-found error "Phone not found" — not an InvalidFormat failure, and not
the message "Phone number not found". -/
theorem change_phone_claim_cex :
    change_phone ["1234567890"] "0000000000" "bad" =
      (Except.error "Phone not found", ["1234567890"]) ∧
    makePhoneNumber "bad" = Except.error "Phone must contain 10 digits" := by
  constructor <;> rfl

/-- Witness for `change_phone_spec` at concrete inputs. -/
theorem change_phone_spec_w :
    change_phone ["1234567890"] "1234567890" "0987654321" =
      (Except.ok (), ["0987654321"]) := by
  have h := (change_phone_spec ["1234567890"] "1234567890" "0987654321").2
    [] [] rfl (by simp)
  rw [h]
  rfl

/-- C5: when the old phone value is absent from the record's phone list,
the failing `change_phone` call leaves the phone list byte-for-byte
unchanged and reports an error. -/
theorem change_phone_fail_unchanged (phones : List String) (old new : String)
    (h : old ∉ phones) :
    (change_phone phones old new).2 = phones ∧
    ∃ e, (change_phone phones old new).1 = Except.error e := by
  rw [change_phone_not_found phones old new h]
  exact ⟨rfl, "Phone not found", rfl⟩

/-- Witness for `change_phone_fail_unchanged` at concrete inputs. -/
theorem change_phone_fail_unchanged_w :
    (change_phone ["1234567890"] "1111111111" "2222222222").2 = ["1234567890"] ∧
    ∃ e, (change_phone ["1234567890"] "1111111111" "2222222222").1 =
      Except.error e :=
  change_phone_fail_unchanged ["1234567890"] "1111111111" "2222222222" (by simp)

/-- C6: the add-contact handler is find-or-create — when the name is
already present, the existing record is updated in place (its other fields
kept, the validated phone appended to its phone list), not replaced; and
concretely, two adds for "bob" on an empty book leave one record holding
both phones in insertion order. -/
theorem add_contact_spec :
    (∀ book name phone r, find book name = some r →
      makePhoneNumber phone = Except.ok phone →
      add_contact [name, phone] book =
        ("Contact saved",
          mapRecord book name
            (fun x => { x with phones := r.phones ++ [phone] }))) ∧
    add_contact ["bob", "4445556666"] (add_contact ["bob", "1112223333"] []).2 =
      ("Contact saved", [⟨"bob", ["1112223333", "4445556666"], none⟩]) := by
  constructor
  · intro book name phone r hfind hok
    simp only [add_contact, hfind, add_phone, hok]
  · rfl

/-- Witness for `add_contact_spec` at concrete inputs. -/
theorem add_contact_spec_w :
    add_contact ["bob", "1234567890"] [⟨"bob", [], none⟩] =
      ("Contact saved",
        mapRecord [⟨"bob", [], none⟩] "bob"
          (fun x =>
            { x with
              phones := (⟨"bob", [], none⟩ : ContactRecord).phones ++
                ["1234567890"] })) :=
  add_contact_spec.1 [⟨"bob", [], none⟩] "bob" "1234567890"
    ⟨"bob", [], none⟩ rfl rfl

/-- C7 as stated fails on the code: the birthday suffix is rendered as
" | Birthday: <date>", not ", birthday: <date>". -/
theorem formatRecord_claim_cex :
    formatRecord ⟨"alice", ["1234567890"], some "01.01.2000"⟩ =
      "alice: 1234567890 | Birthday: 01.01.2000" ∧
    (formatRecord ⟨"alice", ["1234567890"], some "01.01.2000"⟩ ==
      "alice: 1234567890, birthday: 01.01.2000") = false := by
  constructor
  · rfl
  · decide

/-- C7 amended: a record renders as "<name>: <phone1>, <phone2>, ..." with
the phones comma-joined in insertion order, followed by the suffix
" | Birthday: <date>" when a birthday is set and by nothing when it is
absent; a record with no phones renders the empty string between the colon
and the suffix. -/
theorem formatRecord_spec (r : ContactRecord) :
    (r.birthday = none →
      formatRecord r = r.name ++ ": " ++ joinSep ", " r.phones) ∧
    (∀ b, r.birthday = some b →
      formatRecord r =
        r.name ++ ": " ++ joinSep ", " r.phones ++ " | Birthday: " ++ b) ∧
    (r.phones = [] → r.birthday = none → formatRecord r = r.name ++ ": ") := by
  refine ⟨fun hb => ?_, fun b hb => ?_, fun hp hb => ?_⟩
  · simp [formatRecord, hb]
  · simp [formatRecord, hb, String.append_assoc]
  · simp [formatRecord, hp, hb, joinSep]

/-- Witness for `formatRecord_spec` at a concrete record. -/
theorem formatRecord_spec_w :
    formatRecord ⟨"alice", ["1234567890", "0987654321"], none⟩ =
      "alice" ++ ": " ++ joinSep ", " ["1234567890", "0987654321"] :=
  (formatRecord_spec ⟨"alice", ["1234567890", "0987654321"], none⟩).1 rfl

/-- C8 as stated fails on the code: the wrapper converts an InvalidFormat
failure into "Error: " followed by the constructor's message, not into the
constructor's message verbatim (and the book keeps the freshly created
empty record). -/
theorem add_contact_error_cex :
    add_contact ["bob", "123"] [] =
      ("Error: Phone must contain 10 digits", [⟨"bob", [], none⟩]) ∧
    (("Error: Phone must contain 10 digits" : String) ==
      "Phone must contain 10 digits") = false := by
  constructor
  · rfl
  · decide

/-- C8 amended: every handler returns a plain reply string (the wrapper
catches every exception instead of propagating it), and a failure raised
by a field constructor is converted into "Error: " followed by that
constructor's message — the message is embedded after the "Error: "
prefix, not passed on verbatim. -/
theorem handlers_error_spec :
    (∀ name phone book e, makePhoneNumber phone = Except.error e →
      (add_contact [name, phone] book).1 = "Error: " ++ e) ∧
    (∀ name old new book r e ph, find book name = some r →
      change_phone r.phones old new = (Except.error e, ph) →
      (change_contact [name, old, new] book).1 = "Error: " ++ e) ∧
    (∀ name date book r e, find book name = some r →
      makeBirthday date = Except.error e →
      (add_birthday [name, date] book).1 = "Error: " ++ e) := by
  refine ⟨fun name phone book e he => ?_,
    fun name old new book r e ph hf hc => ?_,
    fun name date book r e hf he => ?_⟩
  · simp only [add_contact, add_phone, he]
  · simp only [change_contact, hf, hc]
  · simp only [add_birthday, hf, he]

/-- Witness for `handlers_error_spec` at concrete inputs. -/
theorem handlers_error_spec_w :
    (add_contact ["bob", "123"] []).1 =
      "Error: " ++ "Phone must contain 10 digits" :=
  handlers_error_spec.1 "bob" "123" [] "Phone must contain 10 digits" rfl

theorem makePhoneNumber_ok_valid (s v : String)
    (h : makePhoneNumber s = Except.ok v) : v = s ∧ validPhone s = true := by
  unfold makePhoneNumber at h
  cases hb : (!pyIsDigit s || s.data.length != 10) with
  | true =>
    rw [hb] at h
    simp at h
  | false =>
    rw [hb] at h
    simp at h
    refine ⟨h.symm, ?_⟩
    simp only [Bool.or_eq_false_iff, Bool.not_eq_false', bne_eq_false_iff_eq] at hb
    unfold pyIsDigit at hb
    unfold validPhone
    simp only [Bool.and_eq_true] at hb ⊢
    exact ⟨hb.1, by simp [hb.2]⟩

theorem change_phone_snd_good (phones : List String) (old new : String)
    (h : ∀ q ∈ phones, validPhone q = true) :
    ∀ q ∈ (change_phone phones old new).2, validPhone q = true := by
  induction phones with
  | nil =>
    intro q hq
    simp [change_phone] at hq
  | cons p rest ih =>
    intro q hq
    unfold change_phone at hq
    by_cases hpo : (p == old) = true
    · rw [if_pos hpo] at hq
      cases hmk : makePhoneNumber new with
      | ok v =>
        rw [hmk] at hq
        simp only [List.mem_cons] at hq
        rcases hq with rfl | hq
        · obtain ⟨hv, hval⟩ := makePhoneNumber_ok_valid new q hmk
          rw [hv]
          exact hval
        · exact h q (List.mem_cons_of_mem p hq)
      | error e =>
        rw [hmk] at hq
        simp only [List.mem_cons] at hq
        rcases hq with rfl | hq
        · exact h q (List.mem_cons_self q rest)
        · exact h q (List.mem_cons_of_mem p hq)
    · rw [if_neg hpo] at hq
      cases hcp : change_phone rest old new with
      | mk out rest' =>
        rw [hcp] at hq
        simp only [List.mem_cons] at hq
        rcases hq with rfl | hq
        · exact h q (List.mem_cons_self q rest)
        · have hrest : ∀ q ∈ rest, validPhone q = true :=
            fun q hq => h q (List.mem_cons_of_mem p hq)
          have := ih hrest q
          rw [hcp] at this
          exact this hq

theorem add_record_good (book : List ContactRecord) (r : ContactRecord)
    (hb : goodBook book) (hr : ∀ p ∈ r.phones, validPhone p = true) :
    goodBook (add_record book r) := by
  unfold add_record
  split
  · intro x hx
    simp only [List.mem_map] at hx
    obtain ⟨x0, hx0, hxe⟩ := hx
    by_cases hxn : (x0.name == r.name) = true
    · rw [if_pos hxn] at hxe
      subst hxe
      exact hr
    · rw [if_neg hxn] at hxe
      subst hxe
      exact hb x0 hx0
  · intro x hx
    rcases List.mem_append.mp hx with hx | hx
    · exact hb x hx
    · simp only [List.mem_singleton] at hx
      subst hx
      exact hr

theorem mapRecord_phones_good (book : List ContactRecord) (name : String)
    (ps : List String) (hb : goodBook book)
    (hp : ∀ p ∈ ps, validPhone p = true) :
    goodBook (mapRecord book name (fun x => { x with phones := ps })) := by
  intro x hx
  unfold mapRecord at hx
  simp only [List.mem_map] at hx
  obtain ⟨x0, hx0, hxe⟩ := hx
  by_cases hxn : (x0.name == name) = true
  · rw [if_pos hxn] at hxe
    subst hxe
    exact hp
  · rw [if_neg hxn] at hxe
    subst hxe
    exact hb x0 hx0

/-- C9: starting from records whose phone lists hold only conforming
values, every phone-mutating operation — `add_phone` and `change_phone` at
the record level, the add and change handlers at the book level — leaves
only strings satisfying the PhoneNumber check (all digit characters and
length exactly 10) in any stored phone list. -/
theorem phone_invariant_preserved :
    (∀ phones p ps, (∀ q ∈ phones, validPhone q = true) →
      add_phone phones p = Except.ok ps → ∀ q ∈ ps, validPhone q = true) ∧
    (∀ phones old new, (∀ q ∈ phones, validPhone q = true) →
      ∀ q ∈ (change_phone phones old new).2, validPhone q = true) ∧
    (∀ args book, goodBook book → goodBook (add_contact args book).2) ∧
    (∀ args book, goodBook book → goodBook (change_contact args book).2) := by
  have haddp : ∀ phones p ps, (∀ q ∈ phones, validPhone q = true) →
      add_phone phones p = Except.ok ps → ∀ q ∈ ps, validPhone q = true := by
    intro phones p ps hgood hok q hq
    unfold add_phone at hok
    cases hmk : makePhoneNumber p with
    | ok v =>
      rw [hmk] at hok
      simp only [Except.ok.injEq] at hok
      subst hok
      rcases List.mem_append.mp hq with hq | hq
      · exact hgood q hq
      · simp only [List.mem_singleton] at hq
        subst hq
        obtain ⟨hv, hval⟩ := makePhoneNumber_ok_valid p q hmk
        rw [hv]
        exact hval
    | error e =>
      rw [hmk] at hok
      cases hok
  refine ⟨haddp, change_phone_snd_good, ?_, ?_⟩
  · intro args book hg
    rcases args with _ | ⟨name, _ | ⟨phone, _ | ⟨x, rest⟩⟩⟩
    · exact hg
    · exact hg
    · cases hfind : find book name with
      | some r0 =>
        have hr0 : r0 ∈ book := List.mem_of_find?_eq_some hfind
        have hr0g : ∀ p ∈ r0.phones, validPhone p = true := hg r0 hr0
        cases hap : add_phone r0.phones phone with
        | ok ps =>
          simp only [add_contact, hfind, hap]
          exact mapRecord_phones_good book name ps hg (haddp r0.phones phone ps hr0g hap)
        | error e =>
          simp only [add_contact, hfind, hap]
          exact hg
      | none =>
        have hb1 : goodBook (add_record book ⟨name, [], none⟩) :=
          add_record_good book ⟨name, [], none⟩ hg (by intro p hp; cases hp)
        cases hap : add_phone ([] : List String) phone with
        | ok ps =>
          simp only [add_contact, hfind, hap]
          exact mapRecord_phones_good _ name ps hb1
            (haddp [] phone ps (by intro q hq; cases hq) hap)
        | error e =>
          simp only [add_contact, hfind, hap]
          exact hb1
    · exact hg
  · intro args book hg
    rcases args with _ | ⟨name, _ | ⟨old, _ | ⟨new, _ | ⟨x, rest⟩⟩⟩⟩
    · exact hg
    · exact hg
    · exact hg
    · cases hfind : find book name with
      | some r0 =>
        have hr0 : r0 ∈ book := List.mem_of_find?_eq_some hfind
        have hr0g : ∀ p ∈ r0.phones, validPhone p = true := hg r0 hr0
        have hph : ∀ q ∈ (change_phone r0.phones old new).2, validPhone q = true :=
          change_phone_snd_good r0.phones old new hr0g
        cases hcp : change_phone r0.phones old new with
        | mk out ph =>
          rw [hcp] at hph
          cases out with
          | ok u =>
            simp only [change_contact, hfind, hcp]
            exact mapRecord_phones_good book name ph hg hph
          | error e =>
            simp only [change_contact, hfind, hcp]
            exact mapRecord_phones_good book name ph hg hph
      | none =>
        simp only [change_contact, hfind]
        exact hg
    · exact hg

/-- Witness for `phone_invariant_preserved` at concrete inputs. -/
theorem phone_invariant_preserved_w :
    goodBook (add_contact ["ann", "1234567890"] []).2 :=
  phone_invariant_preserved.2.2.1 ["ann", "1234567890"] []
    (by intro r hr; cases hr)

theorem find_mapRecord (book : List ContactRecord) (name : String)
    (f : ContactRecord → ContactRecord) (hf : ∀ x, (f x).name = x.name) :
    find (mapRecord book name f) name = (find book name).map f := by
  induction book with
  | nil => rfl
  | cons x rest ih =>
    simp only [find, mapRecord, List.map_cons] at *
    by_cases hx : (x.name == name) = true
    · have hfx : ((f x).name == name) = true := by rw [hf x]; exact hx
      rw [if_pos hx]
      simp only [List.find?_cons, hfx, hx]
      rfl
    · have hx0 : (x.name == name) = false := by
        cases hxx : (x.name == name)
        · rfl
        · exact absurd hxx hx
      rw [if_neg hx]
      simp only [List.find?_cons, hx0]
      exact ih

/-- C10: the birthday string is stored and echoed verbatim — after a
successful add-birthday with raw string s, show-birthday for that contact
answers exactly s, with no normalization to the canonical zero-padded
DD.MM.YYYY rendering. -/
theorem birthday_verbatim (book : List ContactRecord) (name s : String)
    (r : ContactRecord) (hfind : find book name = some r)
    (hok : makeBirthday s = Except.ok s) :
    (show_birthday [name] (add_birthday [name, s] book).2).1 = s := by
  have hf : find (mapRecord book name (fun x => { x with birthday := some s }))
      name = some { r with birthday := some s } := by
    rw [find_mapRecord book name (fun x => { x with birthday := some s })
      (fun x => rfl), hfind]
    rfl
  simp only [add_birthday, hfind, hok, show_birthday, hf]

/-- Witness for `birthday_verbatim` at concrete inputs; note the stored
string "1.1.2020" is echoed without zero padding. -/
theorem birthday_verbatim_w :
    (show_birthday ["kate"]
      (add_birthday ["kate", "1.1.2020"] [⟨"kate", [], none⟩]).2).1 =
      "1.1.2020" :=
  birthday_verbatim [⟨"kate", [], none⟩] "kate" "1.1.2020"
    ⟨"kate", [], none⟩ rfl rfl

theorem procRecord_ok_claimEntry (today : Date) (r : ContactRecord)
    (o : Option BEntry) (h : procRecord today r = Except.ok o) :
    claimEntry today r = o := by
  obtain ⟨name, phones, bday⟩ := r
  cases bday with
  | none =>
    injection h with h
  | some bs =>
    simp only [procRecord] at h
    split at h
    · simp at h
    · rename_i birth hs
      split at h
      · simp at h
      · rename_i c0 hr0
        split at h
        · simp at h
        · rename_i c1 hr1
          split at h
          · simp at h
          · rename_i hmax
            split at h
            · rename_i hw
              simp only [claimEntry, hs, hr0, hr1, if_neg hmax, if_pos hw]
              exact Except.ok.inj h
            · rename_i hw
              simp only [claimEntry, hs, hr0, hr1, if_neg hmax, if_neg hw]
              exact Except.ok.inj h

/-- C1: whenever the upcoming-birthday query returns normally, its result
lists, in book order, one entry per record selected by exactly the claimed
rule — records without a birthday contribute nothing, and a record with a
birthday contributes an entry exactly when the candidate date (birth
day/month paired with this year, re-paired with next year when earlier
than today, then shifted +2 days from Saturday or +1 day from Sunday) lies
0..7 whole days from today, the entry reporting the shifted candidate. -/
theorem get_upcoming_birthdays_spec (book : List ContactRecord) (today : Date)
    (l : List BEntry) (h : get_upcoming_birthdays book today = Except.ok l) :
    l = book.filterMap (claimEntry today) := by
  induction book generalizing l with
  | nil =>
    simpa using (Except.ok.inj h).symm
  | cons r rest ih =>
    simp only [get_upcoming_birthdays] at h
    split at h
    · simp at h
    · rename_i o hp
      split at h
      · simp at h
      · rename_i l2 hr
        have hl := Except.ok.inj h
        subst hl
        rw [List.filterMap_cons, procRecord_ok_claimEntry today r o hp]
        cases o with
        | none => simpa using ih l2 hr
        | some b => simpa using ih l2 hr

/-- Witness for `get_upcoming_birthdays_spec` at a concrete book and date:
on Monday 2024-12-30, alice's birthday 01.01 falls within the window as
01.01.2025. -/
theorem get_upcoming_birthdays_spec_w :
    [({ name := "alice", birthday := "01.01.2025" } : BEntry)] =
      List.filterMap (claimEntry ⟨2024, 12, 30⟩)
        [⟨"alice", ["1234567890"], some "01.01.2000"⟩] :=
  get_upcoming_birthdays_spec [⟨"alice", ["1234567890"], some "01.01.2000"⟩]
    ⟨2024, 12, 30⟩ [⟨"alice", "01.01.2025"⟩] (by rfl)
